import Mathlib

/-!
# Verification of `main_trainer.py`

A shallow embedding of the training script `main_trainer.py` of the
Self_Supervised_CNN_RotNet_JAX repository, together with proofs about it.

Modelling conventions:

* `jax.numpy` float arrays are idealised as lists of real numbers (`List ℝ`,
  `List (List ℝ)`); integer label arrays become `List ℕ`.
* The RotNet model itself, the dataloaders and jax's automatic
  differentiation live outside this file's source (they are imported from
  sibling modules / third-party libraries), so the model application and the
  gradient oracle are abstracted into a `ModelEnv` record; everything written
  in `main_trainer.py` itself is embedded definition by definition.
* Python code that can raise (indexing `batch_metrics_np[0]` on an empty
  list) is embedded with `Option`: `none` models the raised `IndexError`.
* The observable control flow of `main()` is embedded as a statement list
  `mainProgram` interpreted by `run`; `exit()` truncates the event trace,
  exactly as the Python `exit()` call terminates the process.
-/

noncomputable section

/-- The RotNet architecture constructors imported at the top of the script
(`from RotNet import RotNet3, RotNet4, RotNet5`). -/
inductive Model
| RotNet3
| RotNet4
| RotNet5
deriving DecidableEq

/-- The CLI arguments produced by `parse()` (lines 23-38), one field per
`add_argument` call, with the same defaults. -/
structure Args where
  data : String
  workers : ℕ
  epochs : ℕ
  startEpoch : ℕ
  batchSize : ℕ
  weightDecay : ℝ
  model : String
  CIFAR10 : Bool
  numClasses : ℕ
  lr : ℝ
  momentum : ℝ
  dtype : String

/-- Observable events of one execution of the script: each corresponds to a
statement of `main()` (or of the epoch loop body, lines 164-188). -/
inductive Event
| parseEv
| randomGenEv
| printEv (s : String)
| defineNetworkEv (m : Model)
| loadDataEv (batchSize workers : ℕ)
| createStateEv
| mkdirEv
| exitEv
| trainEpochEv (epoch : ℕ)
| checkpointEv (step : ℕ)
| printTrainMetricsEv (epoch : ℕ)
| evalValidationEv (epoch : ℕ)
| printValLossEv (epoch : ℕ)
| evalTestEv (epoch : ℕ)
| printTestAccEv (epoch : ℕ)
deriving DecidableEq

/-- The body of one iteration of `for epoch in tqdm(range(args.epochs))`
(lines 164-188): train over the rotation train loader, save a checkpoint at
`step=epoch`, print the train metrics, evaluate on the validation loader,
print the validation loss, and every 10th epoch also evaluate on the test
loader and print the test accuracy. -/
def loopBodyEvents (epoch : ℕ) : List Event :=
  [Event.trainEpochEv epoch, Event.checkpointEv epoch,
   Event.printTrainMetricsEv epoch, Event.evalValidationEv epoch,
   Event.printValLossEv epoch]
  ++ (if epoch % 10 = 0 then [Event.evalTestEv epoch, Event.printTestAccEv epoch] else [])

/-- Events of the whole epoch loop `for epoch in tqdm(range(epochs))`:
iterations for epochs `0, 1, ..., epochs - 1`, in order. -/
def loopTrace : ℕ → List Event
  | 0 => []
  | n + 1 => loopTrace n ++ loopBodyEvents n

/-- Statements of `main()` at the granularity the claims talk about. -/
inductive Stmt
| emit (e : Event)
| mkdirCheck
| exitStmt
| loop (epochs : ℕ)

/-- The statement list of `main()` (lines 126-188), in source order.  Note
that `exitStmt` (line 161) appears in the list *before* the
"Starting Training Loop!" print and the epoch loop. -/
def mainProgram (args : Args) : List Stmt :=
  [Stmt.emit Event.parseEv,
   Stmt.emit Event.randomGenEv,
   Stmt.emit (Event.printEv "Random Gen Complete"),
   Stmt.emit (Event.defineNetworkEv Model.RotNet3),
   Stmt.emit (Event.printEv "Network Defined"),
   Stmt.emit (Event.loadDataEv args.batchSize 4),
   Stmt.emit (Event.printEv "Data Loaded!"),
   Stmt.emit Event.createStateEv,
   Stmt.emit (Event.printEv "Train State Created"),
   Stmt.mkdirCheck,
   Stmt.exitStmt,
   Stmt.emit (Event.printEv "Starting Training Loop!"),
   Stmt.loop args.epochs]

/-- Interpreter for `main()`'s statement list.  `pathExists` is the result of
`os.path.exists("./state_root")` (line 155).  `exit()` terminates the Python
process, so nothing after `exitStmt` contributes to the trace. -/
def run (pathExists : Bool) : List Stmt → List Event
  | [] => []
  | Stmt.emit e :: rest => e :: run pathExists rest
  | Stmt.mkdirCheck :: rest =>
      (if pathExists then [Event.printEv "find existing root directory for state"]
       else [Event.mkdirEv, Event.printEv "creating root directory for state"])
      ++ run pathExists rest
  | Stmt.exitStmt :: _ => [Event.exitEv]
  | Stmt.loop n :: rest => loopTrace n ++ run pathExists rest

/-- The event trace of one invocation of `main()`. -/
def mainTrace (args : Args) (pathExists : Bool) : List Event :=
  run pathExists (mainProgram args)

/-!
## Loss and metric functions (lines 40-55)

`jnp` arrays over floats are idealised as lists of real numbers: a logits
array of shape `(B, C)` becomes a `List (List ℝ)` of `B` rows, a label array
a `List ℕ`.
-/

/-- `jax.nn.one_hot(label, num_classes)` for a single scalar label: 1.0 at
position `label`, 0.0 elsewhere; a label outside `[0, num_classes)` yields
the all-zero row. -/
def oneHot (label : ℕ) (num_classes : ℕ) : List ℝ :=
  (List.range num_classes).map (fun k => if k = label then (1 : ℝ) else 0)

/-- `log(sum(exp(xs)))`, the normaliser of `jax.nn.log_softmax`. -/
def logsumexp (xs : List ℝ) : ℝ :=
  Real.log ((xs.map Real.exp).sum)

/-- `jax.nn.log_softmax(xs)` over the last axis: `xs - logsumexp(xs)`. -/
def logSoftmax (xs : List ℝ) : List ℝ :=
  xs.map (fun x => x - logsumexp xs)

/-- `optax.softmax_cross_entropy` for one row:
`-sum(labels * log_softmax(logits))`. -/
def softmaxCrossEntropyRow (logits labels : List ℝ) : ℝ :=
  -((List.zipWith (· * ·) labels (logSoftmax logits)).sum)

/-- `cross_entropy_loss(logits, labels, num_classes)` (lines 40-45): one-hot
encode the labels, take the per-row softmax cross-entropy, and return the
mean over the batch (`.mean()` divides by the number of rows). -/
def cross_entropy_loss (logits : List (List ℝ)) (labels : List ℕ)
    (num_classes : ℕ) : ℝ :=
  let rows := List.zipWith
    (fun lg l => softmaxCrossEntropyRow lg (oneHot l num_classes)) logits labels
  rows.sum / rows.length

/-- The maximum entry of a row (`0` for the empty row, which `jnp.argmax`
rejects anyway). -/
def listMax : List ℝ → ℝ
  | [] => 0
  | [x] => x
  | x :: y :: t => max x (listMax (y :: t))

/-- `jnp.argmax` over a row: index of the first occurrence of the maximum. -/
def argmax : List ℝ → ℕ
  | [] => 0
  | [_] => 0
  | x :: y :: t => if listMax (y :: t) ≤ x then 0 else argmax (y :: t) + 1

/-- The metrics dictionary `{"loss": ..., "accuracy": ...}` returned by
`compute_metrics`. -/
structure Metrics where
  loss : ℝ
  accuracy : ℝ

/-- `compute_metrics(logits, labels, num_classes)` (lines 47-55): the
cross-entropy loss together with
`jnp.mean(jnp.argmax(logits, -1) == labels)`, the mean of the elementwise
comparison array. -/
def compute_metrics (logits : List (List ℝ)) (labels : List ℕ)
    (num_classes : ℕ) : Metrics :=
  let comparison := List.zipWith
    (fun lg l => if argmax lg = l then (1 : ℝ) else 0) logits labels
  { loss := cross_entropy_loss logits labels num_classes
    accuracy := comparison.sum / comparison.length }

/-!
## Train state, training step, and the epoch loops (lines 57-124)

`model.init` and `model.apply` belong to the external RotNet/flax modules,
and jax's `value_and_grad` is the external autodiff; they are abstracted
into `ModelEnv`.  Everything below it is embedded from `main_trainer.py`.
-/

/-- The variable collections returned by `model.init(rng, ones, train=True)`
(line 61): the dictionary `{'params': ..., 'batch_stats': ...}`. -/
structure Variables where
  params : List ℝ
  batch_stats : List ℝ

/-- The flax `train_state.TrainState` as used by this script: `step`, the
parameters, and the `optax.sgd(learning_rate, momentum)` optimizer (its two
hyperparameters plus its momentum-trace state, initialised by
`tx.init(params)` to zeros).  The `apply_fn` field is the externally
supplied model application and lives in `ModelEnv` instead. -/
structure TrainState where
  step : ℕ
  params : List ℝ
  lr : ℝ
  momentum : ℝ
  optState : List ℝ

/-- `create_train_state(rng, model, learning_rate, momentum)` (lines 57-65),
with the result of `model.init` passed in as `variables`: the `params` and
`batch_stats` collections are both extracted, `tx = optax.sgd(...)` is
built, and `TrainState.create` receives only `apply_fn`, `params` and `tx`
(line 65) — `batch_stats` is not passed on.  (The Python local is called
`variables`; that word is reserved in Lean, hence `vs`.) -/
def create_train_state (vs : Variables) (learning_rate momentum : ℝ) :
    TrainState :=
  let params := vs.params
  let batch_stats := vs.batch_stats
  { step := 0
    params := params
    lr := learning_rate
    momentum := momentum
    optState := params.map (fun _ => 0) }

/-- `state.apply_gradients(grads=grads)` for the `optax.sgd` transform:
the momentum trace becomes `g + momentum * trace`, the update is
`-lr * trace`, parameters are incremented by the update, and `step` is
incremented. -/
def apply_gradients (s : TrainState) (grads : List ℝ) : TrainState :=
  let trace := List.zipWith (fun g t => g + s.momentum * t) grads s.optState
  let updates := trace.map (fun t => -s.lr * t)
  { s with
      step := s.step + 1
      params := List.zipWith (· + ·) s.params updates
      optState := trace }

/-- The external model and autodiff boundary: `applyTrain` is
`state.apply_fn({'params': p}, images, mutable=['batch_stats'], train=True)`
returning logits and the updated batch statistics; `applyEval` is
`state.apply_fn({'params': p}, images, mutable=False, train=False)`
returning logits only; `gradOf` is the gradient computed by
`jax.value_and_grad(loss_fn, has_aux=True)`. -/
structure ModelEnv (Images : Type) where
  applyTrain : List ℝ → Images → List (List ℝ) × List ℝ
  applyEval : List ℝ → Images → List (List ℝ)
  gradOf : List ℝ → Images → List ℕ → ℕ → List ℝ

/-- One `(images, labels)` pair yielded by a dataloader. -/
structure Batch (Images : Type) where
  images : Images
  labels : List ℕ

/-- `train_batch(state, images, labels, num_classes)` (lines 67-86): run the
model with `mutable=['batch_stats']` (the returned updated batch statistics
`r.2` are discarded — the source marks this `TODO: BatchNorm`), take the
gradient of the loss, apply it, and compute the metrics from the forward
logits. -/
def train_batch {Images : Type} (env : ModelEnv Images) (s : TrainState)
    (b : Batch Images) (num_classes : ℕ) : TrainState × Metrics :=
  let r := env.applyTrain s.params b.images
  let logits := r.1
  let grads := env.gradOf s.params b.images b.labels num_classes
  let s' := apply_gradients s grads
  (s', compute_metrics logits b.labels num_classes)

/-- The `for images, labels in dataloader` loop of `train_epoch`
(lines 95-100): thread the state through `train_batch` and collect the
per-batch metrics in order. -/
def trainEpochLoop {Images : Type} (env : ModelEnv Images) (s : TrainState)
    (dataloader : List (Batch Images)) (num_classes : ℕ) :
    TrainState × List Metrics :=
  match dataloader with
  | [] => (s, [])
  | b :: rest =>
      let p := train_batch env s b num_classes
      let q := trainEpochLoop env p.1 rest num_classes
      (q.1, p.2 :: q.2)

/-- The epoch-level averaging
`{k: np.mean([m[k] for m in batch_metrics]) for k in batch_metrics[0]}`
applied to a non-empty metrics list: the mean of each key over the batches. -/
def metricsMean (ms : List Metrics) : Metrics :=
  { loss := (ms.map Metrics.loss).sum / ms.length
    accuracy := (ms.map Metrics.accuracy).sum / ms.length }

/-- `train_epoch(state, dataloader, ...)` (lines 88-103): run the batch loop,
then form the epoch metrics from `batch_metrics_np[0]`'s keys.  Indexing
`batch_metrics_np[0]` raises `IndexError` when the dataloader yielded no
batches; the raised error is modelled by `none`. -/
def train_epoch {Images : Type} (env : ModelEnv Images) (s : TrainState)
    (dataloader : List (Batch Images)) (num_classes : ℕ) :
    Option (TrainState × Metrics) :=
  let r := trainEpochLoop env s dataloader num_classes
  match r.2 with
  | [] => none
  | _ :: _ => some (r.1, metricsMean r.2)

/-- `eval_batch(state, images, labels, num_classes)` (lines 105-112): apply
the model with `mutable=False, train=False` and return the metrics. -/
def eval_batch {Images : Type} (env : ModelEnv Images) (s : TrainState)
    (b : Batch Images) (num_classes : ℕ) : Metrics :=
  compute_metrics (env.applyEval s.params b.images) b.labels num_classes

/-- `eval_model(state, dataloader, num_classes)` (lines 114-124): evaluate
every batch against the same state, average, and return the pair
`(loss, accuracy)`; the empty dataloader again raises (modelled `none`). -/
def eval_model {Images : Type} (env : ModelEnv Images) (s : TrainState)
    (dataloader : List (Batch Images)) (num_classes : ℕ) : Option (ℝ × ℝ) :=
  let ms := dataloader.map (fun b => eval_batch env s b num_classes)
  match ms with
  | [] => none
  | _ :: _ => some ((metricsMean ms).loss, (metricsMean ms).accuracy)

/-- A concrete external-model instance used by the witnesses below. -/
def sampleEnv : ModelEnv Unit :=
  ⟨fun _ _ => ([[1]], []), fun _ _ => [[1]], fun p _ _ _ => p⟩

/-- A concrete train state used by the witnesses below. -/
def sampleState : TrainState := ⟨0, [1], 1, 0, [0]⟩

/-- A second concrete train state with the same parameters as `sampleState`
but different step, hyperparameters, and optimizer state. -/
def sampleState2 : TrainState := ⟨5, [1], 2, 3, [9]⟩

/-- A concrete one-batch dataloader element used by the witnesses below. -/
def sampleBatch : Batch Unit := ⟨(), [0]⟩

/-- C1: `main()` always reaches `exit()` at the end of the setup phase, and
the training-loop body — the epoch training pass, the checkpoint save, the
validation/test evaluations and all metric printing — is never executed. -/
theorem main_exits_before_training_loop (args : Args) (pathExists : Bool) :
    (mainTrace args pathExists).getLast? = some Event.exitEv
    ∧ (∀ e, Event.trainEpochEv e ∉ mainTrace args pathExists)
    ∧ (∀ e, Event.checkpointEv e ∉ mainTrace args pathExists)
    ∧ (∀ e, Event.evalValidationEv e ∉ mainTrace args pathExists)
    ∧ (∀ e, Event.evalTestEv e ∉ mainTrace args pathExists)
    ∧ (∀ e, Event.printTrainMetricsEv e ∉ mainTrace args pathExists)
    ∧ (∀ e, Event.printValLossEv e ∉ mainTrace args pathExists)
    ∧ (∀ e, Event.printTestAccEv e ∉ mainTrace args pathExists) := by
  cases pathExists <;>
    simp [mainTrace, mainProgram, run]

/-- C4 counterexample: with the default arguments except `epochs = 1`, the
trace of `main()` contains no training step at all (so the claimed order
"parse → build model → load data → loop with train/eval/checkpoint" is not
followed), and even inside the (unreached) loop body the checkpoint save
comes *before* the validation evaluation, not after it. -/
theorem main_order_counterexample :
    Event.trainEpochEv 0 ∉
      mainTrace ⟨"ML/", 4, 1, 0, 128, 1/10000, "ResNet20", true, 10, 1/1000, 9/10, "fp32"⟩ true
    ∧ (loopBodyEvents 0).indexOf (Event.checkpointEv 0) <
        (loopBodyEvents 0).indexOf (Event.evalValidationEv 0) := by
  constructor
  · simp [mainTrace, mainProgram, run]
  · decide

/-- C4 (amended): `main()` performs, in order, argument parsing, RNG setup,
network construction, data loading, train-state creation, the checkpoint
directory check, and then `exit()`, terminating there; the epoch loop is
never entered.  In the unreached loop body the per-iteration order is the
training pass, then the checkpoint save, then the validation evaluation. -/
theorem main_linear_order (args : Args) (pathExists : Bool) (e : ℕ) :
    mainTrace args pathExists =
      [Event.parseEv, Event.randomGenEv, Event.printEv "Random Gen Complete",
       Event.defineNetworkEv Model.RotNet3, Event.printEv "Network Defined",
       Event.loadDataEv args.batchSize 4, Event.printEv "Data Loaded!",
       Event.createStateEv, Event.printEv "Train State Created"]
      ++ (if pathExists then [Event.printEv "find existing root directory for state"]
          else [Event.mkdirEv, Event.printEv "creating root directory for state"])
      ++ [Event.exitEv]
    ∧ ∃ l₁ l₂ l₃, loopBodyEvents e =
        Event.trainEpochEv e :: l₁
        ++ Event.checkpointEv e :: l₂
        ++ Event.evalValidationEv e :: l₃ := by
  refine ⟨?_, [], [Event.printTrainMetricsEv e],
    [Event.printValLossEv e]
      ++ (if e % 10 = 0 then [Event.evalTestEv e, Event.printTestAccEv e] else []), ?_⟩
  · cases pathExists <;> rfl
  · rfl

/-- C10: the `--model` CLI flag is never read: changing only the `model`
field of the parsed arguments leaves both the statement list and the event
trace of `main()` unchanged, and the constructed network is `RotNet3()` in
every run. -/
theorem model_flag_has_no_effect (args : Args) (m : String) (pathExists : Bool) :
    mainProgram { args with model := m } = mainProgram args
    ∧ mainTrace { args with model := m } pathExists = mainTrace args pathExists
    ∧ Event.defineNetworkEv Model.RotNet3 ∈ mainTrace args pathExists := by
  refine ⟨rfl, rfl, ?_⟩
  cases pathExists <;> simp [mainTrace, mainProgram, run]

/-- Iteration `k` of the epoch loop contains exactly one checkpoint save,
the one at `step = k`. -/
lemma loopBody_count_checkpoint (k e : ℕ) :
    (loopBodyEvents k).count (Event.checkpointEv e) = if k = e then 1 else 0 := by
  by_cases h : k = e
  · subst h
    by_cases h10 : k % 10 = 0 <;>
      simp [loopBodyEvents, h10, List.count_append, List.count_cons]
  · by_cases h10 : k % 10 = 0 <;>
      simp [loopBodyEvents, h10, h, Ne.symm h, List.count_append, List.count_cons]

/-- Iteration `k` of the epoch loop contains exactly one validation
evaluation, the one of epoch `k`. -/
lemma loopBody_count_eval (k e : ℕ) :
    (loopBodyEvents k).count (Event.evalValidationEv e) = if k = e then 1 else 0 := by
  by_cases h : k = e
  · subst h
    by_cases h10 : k % 10 = 0 <;>
      simp [loopBodyEvents, h10, List.count_append, List.count_cons]
  · by_cases h10 : k % 10 = 0 <;>
      simp [loopBodyEvents, h10, h, Ne.symm h, List.count_append, List.count_cons]

lemma loopTrace_count_checkpoint (n e : ℕ) :
    (loopTrace n).count (Event.checkpointEv e) = if e < n then 1 else 0 := by
  induction n with
  | zero => simp [loopTrace]
  | succ n ih =>
      rw [loopTrace, List.count_append, ih, loopBody_count_checkpoint]
      split_ifs <;> omega

lemma loopTrace_count_eval (n e : ℕ) :
    (loopTrace n).count (Event.evalValidationEv e) = if e < n then 1 else 0 := by
  induction n with
  | zero => simp [loopTrace]
  | succ n ih =>
      rw [loopTrace, List.count_append, ih, loopBody_count_eval]
      split_ifs <;> omega

/-- C5: every iteration of the epoch loop body saves a checkpoint with
`step` equal to the epoch index and runs a validation evaluation, and over a
whole loop of `n` epochs each epoch's checkpoint and validation evaluation
occur exactly once. -/
theorem checkpoint_and_eval_once_per_epoch (n e : ℕ) (h : e < n) :
    Event.checkpointEv e ∈ loopBodyEvents e
    ∧ Event.evalValidationEv e ∈ loopBodyEvents e
    ∧ (loopTrace n).count (Event.checkpointEv e) = 1
    ∧ (loopTrace n).count (Event.evalValidationEv e) = 1 := by
  refine ⟨by simp [loopBodyEvents], by simp [loopBodyEvents], ?_, ?_⟩
  · rw [loopTrace_count_checkpoint]; simp [h]
  · rw [loopTrace_count_eval]; simp [h]

/-- Witness for C5 at `n = 1`, `e = 0`. -/
theorem checkpoint_and_eval_once_per_epoch_witness :
    0 < 1
    ∧ (Event.checkpointEv 0 ∈ loopBodyEvents 0
       ∧ Event.evalValidationEv 0 ∈ loopBodyEvents 0
       ∧ (loopTrace 1).count (Event.checkpointEv 0) = 1
       ∧ (loopTrace 1).count (Event.evalValidationEv 0) = 1) :=
  ⟨by decide, checkpoint_and_eval_once_per_epoch 1 0 (by decide)⟩

/-- Zipping with a function that always returns `0` sums to `0`. -/
lemma zipWith_sum_zero (f : ℕ → ℝ → ℝ) (hf : ∀ k x, f k x = 0) :
    ∀ (ks : List ℕ) (xs : List ℝ), (List.zipWith f ks xs).sum = 0 := by
  intro ks
  induction ks with
  | nil => intro xs; simp
  | cons k ks ih =>
      intro xs
      cases xs with
      | nil => simp
      | cons x xs => simp [hf, ih]

/-- Summing an indicator at index `l` against shifted row entries picks out
the `l`-th entry. -/
lemma indicator_zip_sum (row : List ℝ) :
    ∀ (l : ℕ) (c : ℝ), l < row.length →
    (List.zipWith (fun k x => (if k = l then (1 : ℝ) else 0) * (x - c))
      (List.range row.length) row).sum = row.getD l 0 - c := by
  induction row with
  | nil => intro l c h; simp at h
  | cons x xs ih =>
      intro l c h
      rw [List.length_cons, List.range_succ_eq_map]
      simp only [List.zipWith_cons_cons, List.zipWith_map_left, List.sum_cons]
      cases l with
      | zero =>
          rw [if_pos rfl, one_mul,
            zipWith_sum_zero _ (by intro k y; simp) _ _]
          simp [List.getD]
      | succ l =>
          rw [if_neg (by omega), zero_mul, zero_add]
          have hfun :
              (fun (a : ℕ) (b : ℝ) =>
                (if a.succ = l.succ then (1 : ℝ) else 0) * (b - c))
              = fun (a : ℕ) (b : ℝ) =>
                (if a = l then (1 : ℝ) else 0) * (b - c) := by
            funext a b
            simp [Nat.succ_inj]
          rw [hfun, ih l c (by simpa using Nat.lt_of_succ_lt_succ h)]
          simp [List.getD]

/-- The per-row softmax cross-entropy against a one-hot label collapses to
`logsumexp(row) - row[label]`. -/
lemma softmaxCE_oneHot (row : List ℝ) (l n : ℕ)
    (hn : row.length = n) (hl : l < n) :
    softmaxCrossEntropyRow row (oneHot l n) = logsumexp row - row.getD l 0 := by
  subst hn
  unfold softmaxCrossEntropyRow logSoftmax oneHot
  rw [List.zipWith_map_left, List.zipWith_map_right,
    indicator_zip_sum row l (logsumexp row) hl]
  ring

/-- Pointwise congruence for `zipWith` over list members. -/
lemma zipWith_congr_mem {α β γ : Type} (f g : α → β → γ) :
    ∀ (as : List α) (bs : List β),
    (∀ a ∈ as, ∀ b ∈ bs, f a b = g a b) →
    List.zipWith f as bs = List.zipWith g as bs := by
  intro as
  induction as with
  | nil => intro bs _; simp
  | cons a as ih =>
      intro bs h
      cases bs with
      | nil => simp
      | cons b bs =>
          simp only [List.zipWith_cons_cons]
          rw [h a (List.mem_cons_self a as) b (List.mem_cons_self b bs),
            ih bs (fun a' ha' b' hb' =>
              h a' (List.mem_cons_of_mem a ha') b' (List.mem_cons_of_mem b hb'))]

/-- The sum of the 0/1 comparison array equals the number of positions where
the row's argmax agrees with the label. -/
lemma indicator_sum_eq_filter_length :
    ∀ (as : List (List ℝ)) (bs : List ℕ),
    (List.zipWith (fun lg l => if argmax lg = l then (1 : ℝ) else 0) as bs).sum
      = (((as.zip bs).filter (fun p => argmax p.1 == p.2)).length : ℝ) := by
  intro as
  induction as with
  | nil => intro bs; simp
  | cons a as ih =>
      intro bs
      cases bs with
      | nil => simp
      | cons b bs =>
          simp only [List.zipWith_cons_cons, List.sum_cons, List.zip_cons_cons,
            List.filter_cons]
          by_cases h : argmax a = b
          · simp only [h, if_pos rfl, beq_self_eq_true, if_true, ih bs,
              List.length_cons]
            push_cast
            ring
          · simp [h, ih bs]

/-- C6: when every label is a valid class index and every logits row has
`num_classes` entries, `cross_entropy_loss` is the batch mean of
`logsumexp(row) - row[label]` (the softmax cross-entropy against the one-hot
label), and `compute_metrics` returns that same loss together with the
fraction of rows whose argmax equals the label. -/
theorem cross_entropy_loss_and_compute_metrics_spec
    (logits : List (List ℝ)) (labels : List ℕ) (n : ℕ)
    (hlen : labels.length = logits.length)
    (hrow : ∀ row ∈ logits, row.length = n)
    (hlab : ∀ l ∈ labels, l < n) :
    cross_entropy_loss logits labels n =
      (List.zipWith (fun row l => logsumexp row - row.getD l 0) logits labels).sum
        / (logits.length : ℝ)
    ∧ compute_metrics logits labels n =
        { loss := cross_entropy_loss logits labels n
          accuracy :=
            (((logits.zip labels).filter (fun p => argmax p.1 == p.2)).length : ℝ)
              / (logits.length : ℝ) } := by
  have hcong :
      List.zipWith (fun lg l => softmaxCrossEntropyRow lg (oneHot l n)) logits labels
      = List.zipWith (fun row l => logsumexp row - row.getD l 0) logits labels :=
    zipWith_congr_mem _ _ _ _
      (fun a ha b hb => softmaxCE_oneHot a b n (hrow a ha) (hlab b hb))
  have hmin : min logits.length labels.length = logits.length := by
    rw [hlen, min_self]
  constructor
  · simp only [cross_entropy_loss]
    rw [hcong, List.length_zipWith, hmin]
  · simp only [compute_metrics, Metrics.mk.injEq, true_and]
    rw [indicator_sum_eq_filter_length, List.length_zipWith, hmin]

/-- Witness for C6 on the batch `logits = [[0,1],[2,0]]`, `labels = [1,0]`,
`num_classes = 2`. -/
theorem cross_entropy_loss_and_compute_metrics_spec_witness :
    (([1, 0] : List ℕ).length = ([[0, 1], [2, 0]] : List (List ℝ)).length
     ∧ (∀ row ∈ ([[0, 1], [2, 0]] : List (List ℝ)), row.length = 2)
     ∧ (∀ l ∈ ([1, 0] : List ℕ), l < 2))
    ∧ (cross_entropy_loss [[0, 1], [2, 0]] [1, 0] 2 =
        (List.zipWith (fun row l => logsumexp row - row.getD l 0)
          ([[0, 1], [2, 0]] : List (List ℝ)) [1, 0]).sum
          / (([[0, 1], [2, 0]] : List (List ℝ)).length : ℝ)
       ∧ compute_metrics [[0, 1], [2, 0]] [1, 0] 2 =
          { loss := cross_entropy_loss [[0, 1], [2, 0]] [1, 0] 2
            accuracy :=
              (((([[0, 1], [2, 0]] : List (List ℝ)).zip ([1, 0] : List ℕ)).filter
                  (fun p => argmax p.1 == p.2)).length : ℝ)
                / (([[0, 1], [2, 0]] : List (List ℝ)).length : ℝ) }) :=
  ⟨⟨rfl,
    by
      intro row hr
      simp only [List.mem_cons, List.not_mem_nil, or_false] at hr
      rcases hr with rfl | rfl <;> rfl,
    by
      intro l hl
      simp only [List.mem_cons, List.not_mem_nil, or_false] at hl
      rcases hl with rfl | rfl <;> omega⟩,
    cross_entropy_loss_and_compute_metrics_spec [[0, 1], [2, 0]] [1, 0] 2
      rfl
      (by
        intro row hr
        simp only [List.mem_cons, List.not_mem_nil, or_false] at hr
        rcases hr with rfl | rfl <;> rfl)
      (by
        intro l hl
        simp only [List.mem_cons, List.not_mem_nil, or_false] at hl
        rcases hl with rfl | rfl <;> omega)⟩

/-- C2 counterexample: two `model.init` results that agree on `params` and
differ only in `batch_stats` produce *identical* train states, so the
`batch_stats` collection is not carried in the returned `TrainState`. -/
theorem create_train_state_drops_batch_stats :
    (Variables.mk [1] [5]).batch_stats ≠ (Variables.mk [1] [7]).batch_stats
    ∧ create_train_state ⟨[1], [5]⟩ (1/100) (9/10)
        = create_train_state ⟨[1], [7]⟩ (1/100) (9/10) := by
  constructor
  · intro h
    have h5 : (5 : ℝ) = 7 := by
      simpa using congrArg (fun l => l.headD 0) h
    norm_num at h5
  · rfl

/-- C2 (amended): the train state produced by `create_train_state` bundles
the model parameters and the freshly initialised optimizer state (at
`step = 0`), but not the batch statistics: it is a function of
`variables['params']` alone. -/
theorem create_train_state_carries_params_and_opt_state
    (v v' : Variables) (lr mom : ℝ) (h : v.params = v'.params) :
    create_train_state v lr mom = create_train_state v' lr mom
    ∧ (create_train_state v lr mom).params = v.params
    ∧ (create_train_state v lr mom).optState = v.params.map (fun _ => 0)
    ∧ (create_train_state v lr mom).step = 0 := by
  refine ⟨?_, rfl, rfl, rfl⟩
  simp [create_train_state, h]

/-- Witness for the amended C2 at two concrete `model.init` results. -/
theorem create_train_state_carries_params_and_opt_state_witness :
    (Variables.mk [1] [2]).params = (Variables.mk [1] [3]).params
    ∧ (create_train_state ⟨[1], [2]⟩ 1 0 = create_train_state ⟨[1], [3]⟩ 1 0
       ∧ (create_train_state ⟨[1], [2]⟩ 1 0).params = (Variables.mk [1] [2]).params
       ∧ (create_train_state ⟨[1], [2]⟩ 1 0).optState
           = (Variables.mk [1] [2]).params.map (fun _ => 0)
       ∧ (create_train_state ⟨[1], [2]⟩ 1 0).step = 0) :=
  ⟨rfl, create_train_state_carries_params_and_opt_state ⟨[1], [2]⟩ ⟨[1], [3]⟩ 1 0 rfl⟩

/-- The state threaded by the batch loop is the left fold of the
`train_batch` state transformer over the dataloader. -/
lemma trainEpochLoop_fst {Images : Type} (env : ModelEnv Images) (nc : ℕ) :
    ∀ (bs : List (Batch Images)) (s : TrainState),
    (trainEpochLoop env s bs nc).1
      = List.foldl (fun st b => (train_batch env st b nc).1) s bs := by
  intro bs
  induction bs with
  | nil => intro s; rfl
  | cons b rest ih => intro s; simp [trainEpochLoop, ih]

/-- The batch loop records exactly one metrics dictionary per batch. -/
lemma trainEpochLoop_length {Images : Type} (env : ModelEnv Images) (nc : ℕ) :
    ∀ (bs : List (Batch Images)) (s : TrainState),
    (trainEpochLoop env s bs nc).2.length = bs.length := by
  intro bs
  induction bs with
  | nil => intro s; rfl
  | cons b rest ih => intro s; simp [trainEpochLoop, ih]

/-- On a non-empty dataloader, `train_epoch` returns the threaded state and
the epoch mean of the recorded metrics. -/
lemma train_epoch_cons {Images : Type} (env : ModelEnv Images) (s : TrainState)
    (b : Batch Images) (rest : List (Batch Images)) (nc : ℕ) :
    train_epoch env s (b :: rest) nc =
      some ((trainEpochLoop env s (b :: rest) nc).1,
        metricsMean (trainEpochLoop env s (b :: rest) nc).2) := rfl

/-- On a non-empty dataloader, `eval_model` returns the mean loss and mean
accuracy of the per-batch metrics. -/
lemma eval_model_cons {Images : Type} (env : ModelEnv Images) (s : TrainState)
    (b : Batch Images) (rest : List (Batch Images)) (nc : ℕ) :
    eval_model env s (b :: rest) nc =
      some ((metricsMean ((b :: rest).map (fun x => eval_batch env s x nc))).loss,
        (metricsMean ((b :: rest).map (fun x => eval_batch env s x nc))).accuracy) := rfl

lemma eval_model_means {Images : Type} (env : ModelEnv Images) (s : TrainState)
    (bs : List (Batch Images)) (nc : ℕ) (h : bs ≠ []) :
    eval_model env s bs nc =
      some ((bs.map (fun b => (eval_batch env s b nc).loss)).sum / (bs.length : ℝ),
        (bs.map (fun b => (eval_batch env s b nc).accuracy)).sum / (bs.length : ℝ)) := by
  obtain ⟨b, rest, rfl⟩ := List.exists_cons_of_ne_nil h
  rw [eval_model_cons]
  simp [metricsMean, List.map_map, Function.comp_def]

/-- C3: on a non-empty dataloader, `train_epoch` and `eval_model` return,
for each metric key (`loss` and `accuracy`), the arithmetic mean of the
per-batch values over the batches of one pass — the sum of the per-batch
values divided by the number of batches. -/
theorem epoch_metrics_are_batch_means {Images : Type} (env : ModelEnv Images)
    (s : TrainState) (bs : List (Batch Images)) (nc : ℕ) (h : bs ≠ []) :
    train_epoch env s bs nc =
      some ((trainEpochLoop env s bs nc).1,
        { loss := ((trainEpochLoop env s bs nc).2.map Metrics.loss).sum
            / (bs.length : ℝ)
          accuracy := ((trainEpochLoop env s bs nc).2.map Metrics.accuracy).sum
            / (bs.length : ℝ) })
    ∧ eval_model env s bs nc =
      some ((bs.map (fun b => (eval_batch env s b nc).loss)).sum / (bs.length : ℝ),
        (bs.map (fun b => (eval_batch env s b nc).accuracy)).sum / (bs.length : ℝ)) := by
  refine ⟨?_, eval_model_means env s bs nc h⟩
  obtain ⟨b, rest, rfl⟩ := List.exists_cons_of_ne_nil h
  rw [train_epoch_cons]
  have hlen := trainEpochLoop_length env nc (b :: rest) s
  simp only [metricsMean, hlen]

/-- C7: one call to `train_epoch` makes exactly one pass over the
dataloader: the final state is the left fold of single `train_batch` steps
over exactly the batches of the dataloader (state threaded batch to batch),
one metrics record is produced per batch, and the returned state is that
threaded state. -/
theorem train_epoch_is_one_pass_of_train_batch {Images : Type}
    (env : ModelEnv Images) (s : TrainState) (bs : List (Batch Images))
    (nc : ℕ) (h : bs ≠ []) :
    (trainEpochLoop env s bs nc).1
      = List.foldl (fun st b => (train_batch env st b nc).1) s bs
    ∧ (trainEpochLoop env s bs nc).2.length = bs.length
    ∧ train_epoch env s bs nc
        = some ((trainEpochLoop env s bs nc).1,
            metricsMean (trainEpochLoop env s bs nc).2) := by
  obtain ⟨b, rest, rfl⟩ := List.exists_cons_of_ne_nil h
  exact ⟨trainEpochLoop_fst env nc _ s, trainEpochLoop_length env nc _ s,
    train_epoch_cons env s b rest nc⟩

/-- C8: on a dataloader that yields no batches, `train_epoch` and
`eval_model` raise (the `batch_metrics_np[0]` indexing fails, modelled by
`none`); on any dataloader with at least one batch they return normally. -/
theorem empty_dataloader_raises {Images : Type} (env : ModelEnv Images)
    (s : TrainState) (nc : ℕ) :
    (train_epoch env s [] nc = none ∧ eval_model env s [] nc = none)
    ∧ ∀ (b : Batch Images) (bs : List (Batch Images)),
        (train_epoch env s (b :: bs) nc).isSome
        ∧ (eval_model env s (b :: bs) nc).isSome := by
  refine ⟨⟨rfl, rfl⟩, fun b bs => ?_⟩
  rw [train_epoch_cons, eval_model_cons]
  exact ⟨rfl, rfl⟩

/-- C9: `eval_batch`/`eval_model` neither apply gradients nor mutate the
state: the result is a pure pair of metric values determined by
`state.params` alone (any state with the same parameters evaluates
identically, whatever its step or optimizer state), every batch is evaluated
against the same incoming state, and the logits come from the
`mutable=False, train=False` application `applyEval`. -/
theorem eval_leaves_state_unchanged {Images : Type} (env : ModelEnv Images)
    (s s' : TrainState) (bs : List (Batch Images)) (nc : ℕ)
    (hp : s'.params = s.params) (h : bs ≠ []) :
    eval_model env s' bs nc = eval_model env s bs nc
    ∧ eval_model env s bs nc =
      some ((bs.map (fun b =>
          (compute_metrics (env.applyEval s.params b.images) b.labels nc).loss)).sum
            / (bs.length : ℝ),
        (bs.map (fun b =>
          (compute_metrics (env.applyEval s.params b.images) b.labels nc).accuracy)).sum
            / (bs.length : ℝ)) := by
  constructor
  · simp [eval_model, eval_batch, hp]
  · rw [eval_model_means env s bs nc h]
    simp [eval_batch]

/-- Witness for C3 on a one-batch dataloader. -/
theorem epoch_metrics_are_batch_means_witness :
    ([sampleBatch] : List (Batch Unit)) ≠ []
    ∧ (train_epoch sampleEnv sampleState [sampleBatch] 1 =
        some ((trainEpochLoop sampleEnv sampleState [sampleBatch] 1).1,
          { loss :=
              ((trainEpochLoop sampleEnv sampleState [sampleBatch] 1).2.map
                Metrics.loss).sum / (([sampleBatch] : List (Batch Unit)).length : ℝ)
            accuracy :=
              ((trainEpochLoop sampleEnv sampleState [sampleBatch] 1).2.map
                Metrics.accuracy).sum
                / (([sampleBatch] : List (Batch Unit)).length : ℝ) })
       ∧ eval_model sampleEnv sampleState [sampleBatch] 1 =
          some ((([sampleBatch] : List (Batch Unit)).map
              (fun b => (eval_batch sampleEnv sampleState b 1).loss)).sum
                / (([sampleBatch] : List (Batch Unit)).length : ℝ),
            (([sampleBatch] : List (Batch Unit)).map
              (fun b => (eval_batch sampleEnv sampleState b 1).accuracy)).sum
                / (([sampleBatch] : List (Batch Unit)).length : ℝ))) :=
  ⟨List.cons_ne_nil _ _,
    epoch_metrics_are_batch_means sampleEnv sampleState [sampleBatch] 1
      (List.cons_ne_nil _ _)⟩

/-- Witness for C7 on a one-batch dataloader. -/
theorem train_epoch_is_one_pass_of_train_batch_witness :
    ([sampleBatch] : List (Batch Unit)) ≠ []
    ∧ ((trainEpochLoop sampleEnv sampleState [sampleBatch] 1).1
        = List.foldl (fun st b => (train_batch sampleEnv st b 1).1) sampleState
            [sampleBatch]
       ∧ (trainEpochLoop sampleEnv sampleState [sampleBatch] 1).2.length
          = ([sampleBatch] : List (Batch Unit)).length
       ∧ train_epoch sampleEnv sampleState [sampleBatch] 1
          = some ((trainEpochLoop sampleEnv sampleState [sampleBatch] 1).1,
              metricsMean (trainEpochLoop sampleEnv sampleState [sampleBatch] 1).2)) :=
  ⟨List.cons_ne_nil _ _,
    train_epoch_is_one_pass_of_train_batch sampleEnv sampleState [sampleBatch] 1
      (List.cons_ne_nil _ _)⟩

/-- Witness for C9: `sampleState2` differs from `sampleState` in step,
hyperparameters and optimizer state, but shares its parameters. -/
theorem eval_leaves_state_unchanged_witness :
    (sampleState2.params = sampleState.params
     ∧ ([sampleBatch] : List (Batch Unit)) ≠ [])
    ∧ (eval_model sampleEnv sampleState2 [sampleBatch] 1
        = eval_model sampleEnv sampleState [sampleBatch] 1
       ∧ eval_model sampleEnv sampleState [sampleBatch] 1 =
          some ((([sampleBatch] : List (Batch Unit)).map (fun b =>
              (compute_metrics (sampleEnv.applyEval sampleState.params b.images)
                b.labels 1).loss)).sum
                / (([sampleBatch] : List (Batch Unit)).length : ℝ),
            (([sampleBatch] : List (Batch Unit)).map (fun b =>
              (compute_metrics (sampleEnv.applyEval sampleState.params b.images)
                b.labels 1).accuracy)).sum
                / (([sampleBatch] : List (Batch Unit)).length : ℝ))) :=
  ⟨⟨rfl, List.cons_ne_nil _ _⟩,
    eval_leaves_state_unchanged sampleEnv sampleState sampleState2 [sampleBatch] 1
      rfl (List.cons_ne_nil _ _)⟩

end
